import Mathlib

/-!
Verification of the SVG viewer (src/js/index.js) against its specification.

The DOM document tree is shallowly embedded as a rose tree of elements
carrying a tag name and an ordered attribute list.  Numbers are embedded as
exact rationals (the source arithmetic on view state is plain IEEE double
arithmetic on decimal literals; all literals used, 1.2, 1.08, 0.1, 20, are
modelled by the exact rationals they denote).  Browser built-ins
(DOMParser, fetch, FileReader) are taken as inputs: a function receives the
tree the parser produced, and the inliner receives a fetch oracle mapping a
URL to the data URI obtained on success, or none on any failure.
-/

/-- Attribute of a DOM element: qualified name and string value.  A
namespaced attribute such as the XLink href is represented by its
serialized qualified name, here the literal name xlink:href. -/
structure XAttr where
  name : String
  value : String
deriving DecidableEq

/-- DOM element: tag name, ordered attribute list, ordered child elements.
Text nodes are irrelevant to every claim and are omitted. -/
inductive XElem : Type where
  | elem (name : String) (attrs : List XAttr) (children : List XElem)

/-- Tag name of an element. -/
def XElem.name : XElem → String
  | .elem n _ _ => n

/-- Attribute list of an element. -/
def XElem.attrs : XElem → List XAttr
  | .elem _ a _ => a

/-- Children of an element. -/
def XElem.children : XElem → List XElem
  | .elem _ _ cs => cs

/-- Boolean test that an element carries the given tag name. -/
def isNamed (tag : String) (e : XElem) : Bool :=
  e.name = tag

/-- First attribute value with the given name, as getAttribute returns it
(none models the DOM null). -/
def getAttrList (n : String) : List XAttr → Option String
  | [] => none
  | a :: rest => if a.name = n then some a.value else getAttrList n rest

/-- The getAttribute lookup on an element. -/
def XElem.getAttr (n : String) (e : XElem) : Option String :=
  getAttrList n e.attrs

/-- The setAttribute update on an attribute list: replace the value in
place when the name is present, append a fresh attribute otherwise. -/
def setAttrList (n v : String) : List XAttr → List XAttr
  | [] => [⟨n, v⟩]
  | a :: rest => if a.name = n then ⟨n, v⟩ :: rest else a :: setAttrList n v rest

/-- The setAttribute update on an element. -/
def XElem.setAttr (n v : String) : XElem → XElem
  | .elem nm attrs cs => .elem nm (setAttrList n v attrs) cs

/-- Existence of an element satisfying a predicate anywhere in a forest,
in the manner of querySelectorAll over every node of every tree. -/
def existsElemList (p : XElem → Bool) : List XElem → Bool
  | [] => false
  | XElem.elem n a cs :: rest =>
    p (XElem.elem n a cs) || existsElemList p cs || existsElemList p rest

/-- Existence of an element satisfying a predicate in a single tree. -/
def existsElem (p : XElem → Bool) (e : XElem) : Bool :=
  existsElemList p [e]

/-- Existence of an attribute satisfying a predicate anywhere in a forest. -/
def existsAttrList (p : XAttr → Bool) : List XElem → Bool
  | [] => false
  | XElem.elem _ a cs :: rest =>
    a.any p || existsAttrList p cs || existsAttrList p rest

/-! ## Sanitizer (src/js/index.js lines 49 to 73) -/

/-- Test of the regular expression match on an attribute name used at line
60 of the source: the name starts with the letters o, n in either case. -/
def isOnName (s : String) : Bool :=
  (s.data.take 2).map Char.toLower = ['o', 'n']

/-- Removal of leading and trailing whitespace from a character list, as
the trim method does. -/
def trimChars (l : List Char) : List Char :=
  ((l.dropWhile Char.isWhitespace).reverse.dropWhile Char.isWhitespace).reverse

/-- Test of the dangerous value check at lines 62 to 66 of the source: the
value, trimmed and lowercased, starts with the scheme javascript: (the
empty value is falsy in the source and skips the check, and also fails
this test).  Written on character lists: trim, lowercase every character,
test the scheme as a list prefix. -/
def isJSValue (s : String) : Bool :=
  "javascript:".data.isPrefixOf ((trimChars s.data).map Char.toLower)

/-- An attribute the sanitizer removes: name starting with on, or value
starting with javascript: after trimming and lowercasing. -/
def badAttr (a : XAttr) : Bool :=
  isOnName a.name || isJSValue a.value

/-- An attribute the sanitizer keeps. -/
def keepAttr (a : XAttr) : Bool :=
  !badAttr a

/-- Removal of every element with the given tag name from a forest, with
its whole subtree, as remove() on every querySelectorAll result does. -/
def removeNamedList (tag : String) : List XElem → List XElem
  | [] => []
  | XElem.elem n a cs :: rest =>
    if n = tag then removeNamedList tag rest
    else XElem.elem n a (removeNamedList tag cs) :: removeNamedList tag rest

/-- Removal of every element with the given tag name from a document whose
root is the given element; none when the root itself is removed (the
document is left with no document element). -/
def removeNamedRoot (tag : String) (e : XElem) : Option XElem :=
  match e with
  | .elem n a cs =>
    if n = tag then none else some (.elem n a (removeNamedList tag cs))

/-- The attribute pass at lines 57 to 70 of the source, applied to every
element of a forest: on every element, each attribute whose name starts
with on or whose value starts with javascript: is removed. -/
def cleanAttrsList : List XElem → List XElem
  | [] => []
  | XElem.elem n a cs :: rest =>
    XElem.elem n (a.filter keepAttr) (cleanAttrsList cs) :: cleanAttrsList rest

/-- The attribute pass applied to a whole document. -/
def cleanAttrsRoot : XElem → XElem
  | .elem n a cs => .elem n (a.filter keepAttr) (cleanAttrsList cs)

/-- The sanitizeSVGDocument function of the source: remove every script
element, then every foreignObject element, then strip the dangerous
attributes from every remaining element.  The result is none exactly when
the document root itself was removed. -/
def sanitizeSVGDocument (doc : XElem) : Option XElem :=
  ((removeNamedRoot "script" doc).bind (removeNamedRoot "foreignObject")).map
    cleanAttrsRoot

/-- Modelled from the spec: a single pass over a forest that drops every
script or foreignObject subtree and filters the dangerous attributes of
every surviving element, altering nothing else.  Written from the words of
the contract in section 4.1 of the spec, for comparison with
sanitizeSVGDocument. -/
def cleanSpecList : List XElem → List XElem
  | [] => []
  | XElem.elem n a cs :: rest =>
    if n = "script" ∨ n = "foreignObject" then cleanSpecList rest
    else XElem.elem n (a.filter keepAttr) (cleanSpecList cs) :: cleanSpecList rest

/-- Modelled from the spec: the single sanitization pass on a document. -/
def cleanSpecRoot (e : XElem) : Option XElem :=
  match e with
  | .elem n a cs =>
    if n = "script" ∨ n = "foreignObject" then none
    else some (.elem n (a.filter keepAttr) (cleanSpecList cs))

/-- Existence of an element with the given tag in an optional document. -/
def docHasElem (tag : String) : Option XElem → Bool
  | none => false
  | some e => existsElem (isNamed tag) e

/-- Existence of an attribute satisfying a predicate in an optional
document. -/
def docHasAttr (p : XAttr → Bool) : Option XElem → Bool
  | none => false
  | some (XElem.elem _ a cs) => a.any p || existsAttrList p cs

/-! ### Sanitizer lemmas -/

theorem existsElemList_removeNamedList (t tag : String)
    (l : List XElem)
    (h : existsElemList (isNamed t) (removeNamedList tag l) = true) :
    existsElemList (isNamed t) l = true := by
  induction l using removeNamedList.induct tag with
  | case1 => simpa [removeNamedList] using h
  | case2 a cs rest ih =>
    rw [removeNamedList, if_pos rfl] at h
    simp only [existsElemList, Bool.or_eq_true]
    exact Or.inr (ih h)
  | case3 n a cs rest hne ih1 ih2 =>
    rw [removeNamedList, if_neg hne] at h
    simp only [existsElemList, Bool.or_eq_true, isNamed, XElem.name] at h ⊢
    rcases h with (h | h) | h
    · exact Or.inl (Or.inl h)
    · exact Or.inl (Or.inr (ih1 h))
    · exact Or.inr (ih2 h)

theorem removeNamedList_no_tag (tag : String) (l : List XElem) :
    existsElemList (isNamed tag) (removeNamedList tag l) = false := by
  induction l using removeNamedList.induct tag with
  | case1 => simp [removeNamedList, existsElemList]
  | case2 a cs rest ih => simpa [removeNamedList] using ih
  | case3 n a cs rest hne ih1 ih2 =>
    rw [removeNamedList, if_neg hne]
    simp [existsElemList, isNamed, XElem.name, hne, ih1, ih2]

theorem existsElemList_cleanAttrsList (tag : String) (l : List XElem) :
    existsElemList (isNamed tag) (cleanAttrsList l) =
      existsElemList (isNamed tag) l := by
  induction l using cleanAttrsList.induct with
  | case1 => simp [cleanAttrsList]
  | case2 n a cs rest ih1 ih2 =>
    simp [cleanAttrsList, existsElemList, isNamed, XElem.name, ih1, ih2]

theorem filter_keepAttr_any (a : List XAttr) :
    (a.filter keepAttr).any badAttr = false := by
  simp only [List.any_eq_false]
  intro x hx
  have hk := List.of_mem_filter hx
  simpa [keepAttr] using hk

theorem existsAttrList_cleanAttrsList (l : List XElem) :
    existsAttrList badAttr (cleanAttrsList l) = false := by
  induction l using cleanAttrsList.induct with
  | case1 => simp [cleanAttrsList, existsAttrList]
  | case2 n a cs rest ih1 ih2 =>
    simp only [cleanAttrsList, existsAttrList, ih1, ih2, filter_keepAttr_any,
      Bool.or_false]

theorem cleanSpecList_eq (l : List XElem) :
    cleanSpecList l =
      cleanAttrsList (removeNamedList "foreignObject" (removeNamedList "script" l)) := by
  induction l using removeNamedList.induct "script" with
  | case1 => simp [cleanSpecList, removeNamedList, cleanAttrsList]
  | case2 a cs rest ih =>
    rw [cleanSpecList, if_pos (Or.inl rfl), removeNamedList, if_pos rfl, ih]
  | case3 n a cs rest hne ih1 ih2 =>
    rw [removeNamedList, if_neg hne]
    by_cases hf : n = "foreignObject"
    · rw [cleanSpecList, if_pos (Or.inr hf), removeNamedList, if_pos hf, ih2]
    · rw [cleanSpecList, if_neg (by simp [hne, hf]), removeNamedList, if_neg hf,
        cleanAttrsList, ih1, ih2]

/-! ## Parser (src/js/index.js lines 76 to 83) -/

/-- The parseSVGText function of the source, taking as input the tree the
strict XML parser produced from the text: it fails with the parse error
message exactly when the parsed result embeds a parsererror element, and
returns the document unchanged otherwise. -/
def parseSVGText (doc : XElem) : Except String XElem :=
  if existsElem (isNamed "parsererror") doc then
    Except.error "解析失败:不是合法的 SVG"
  else Except.ok doc

theorem removeNamedList_preserves_absent (t tag : String) (l : List XElem)
    (h : existsElemList (isNamed t) l = false) :
    existsElemList (isNamed t) (removeNamedList tag l) = false := by
  rcases Bool.eq_false_or_eq_true
      (existsElemList (isNamed t) (removeNamedList tag l)) with h1 | h1
  · exact absurd (existsElemList_removeNamedList t tag l h1) (by simp [h])
  · exact h1

/-- C1: for every parsed document, sanitization removes every script
element, every foreignObject element (each with its subtree), every
attribute whose name starts with on case-insensitively, and every
attribute whose trimmed lowercased value starts with javascript:, and
alters nothing else: the three passes of sanitizeSVGDocument coincide with
the single spec-worded cleaning pass cleanSpecRoot, which keeps every
other element and attribute unchanged and in order. -/
theorem c1_sanitize_characterization (doc : XElem) :
    docHasElem "script" (sanitizeSVGDocument doc) = false ∧
    docHasElem "foreignObject" (sanitizeSVGDocument doc) = false ∧
    docHasAttr badAttr (sanitizeSVGDocument doc) = false ∧
    sanitizeSVGDocument doc = cleanSpecRoot doc := by
  obtain ⟨n, a, cs⟩ := doc
  by_cases hs : n = "script"
  · subst hs
    simp [sanitizeSVGDocument, removeNamedRoot, cleanSpecRoot, docHasElem,
      docHasAttr]
  · by_cases hf : n = "foreignObject"
    · subst hf
      simp [sanitizeSVGDocument, removeNamedRoot, cleanSpecRoot, docHasElem,
        docHasAttr, hs, Option.bind]
    · have hL1 : existsElemList (isNamed "script")
          (removeNamedList "script" cs) = false :=
        removeNamedList_no_tag "script" cs
      have hL2s : existsElemList (isNamed "script")
          (removeNamedList "foreignObject" (removeNamedList "script" cs)) = false :=
        removeNamedList_preserves_absent "script" "foreignObject" _ hL1
      have hL2f : existsElemList (isNamed "foreignObject")
          (removeNamedList "foreignObject" (removeNamedList "script" cs)) = false :=
        removeNamedList_no_tag "foreignObject" _
      refine ⟨?_, ?_, ?_, ?_⟩
      · simp [sanitizeSVGDocument, removeNamedRoot, hs, hf, docHasElem,
          cleanAttrsRoot, existsElem, existsElemList, isNamed, XElem.name,
          existsElemList_cleanAttrsList, hL2s]
      · simp [sanitizeSVGDocument, removeNamedRoot, hs, hf, docHasElem,
          cleanAttrsRoot, existsElem, existsElemList, isNamed, XElem.name,
          existsElemList_cleanAttrsList, hL2f]
      · simp [sanitizeSVGDocument, removeNamedRoot, hs, hf, docHasAttr,
          cleanAttrsRoot, filter_keepAttr_any, existsAttrList_cleanAttrsList]
        intro x hx hk
        simpa [keepAttr] using hk
      · simp [sanitizeSVGDocument, removeNamedRoot, hs, hf, cleanSpecRoot,
          cleanAttrsRoot, cleanSpecList_eq]

/-- C6: parsing fails with the parse error message exactly when the strict
XML parser embedded a parsererror node in its result, and otherwise
returns the parsed document unchanged. -/
theorem c6_parse_error_iff (doc : XElem) :
    (parseSVGText doc = Except.error "解析失败:不是合法的 SVG" ↔
      existsElem (isNamed "parsererror") doc = true) ∧
    (existsElem (isNamed "parsererror") doc = false →
      parseSVGText doc = Except.ok doc) := by
  unfold parseSVGText
  by_cases h : existsElem (isNamed "parsererror") doc
  · simp [h]
  · simp [h]

/-- Witness for C6 at two concrete documents: a plain svg root parses
successfully, and a document embedding a parsererror element fails with
the exact error message. -/
theorem c6_parse_error_iff_witness :
    parseSVGText (XElem.elem "svg" [] []) =
      Except.ok (XElem.elem "svg" [] []) ∧
    parseSVGText (XElem.elem "parsererror" [] []) =
      Except.error "解析失败:不是合法的 SVG" := by
  constructor
  · exact (c6_parse_error_iff (XElem.elem "svg" [] [])).2
      (by simp [existsElem, existsElemList, isNamed, XElem.name])
  · exact (c6_parse_error_iff (XElem.elem "parsererror" [] [])).1.mpr
      (by simp [existsElem, existsElemList, isNamed, XElem.name])

/-! ## View state and transform engine (src/js/index.js lines 30 to 42,
323 to 351, 378 to 450).  Numbers are exact rationals; the decimal
literals 1.2, 1.08, 0.1 of the source denote the rationals 6/5, 27/25,
1/10.  The CSS transform translate(tx, ty) scale(scale) maps a content
point p to the surface point tx + scale * p per axis, with the transform
origin at the container origin. -/

structure ViewState where
  scale : ℚ
  tx : ℚ
  ty : ℚ
  minScale : ℚ
  maxScale : ℚ
  svgElement : Option XElem
  applied : ℚ × ℚ × ℚ

/-- Clamping used by every scale update: Math.max(minScale,
Math.min(maxScale, s)). -/
def clampScale (st : ViewState) (s : ℚ) : ℚ :=
  max st.minScale (min st.maxScale s)

/-- The applyTransform function: write the current scale and translation
into the container style. -/
def applyTransform (st : ViewState) : ViewState :=
  { st with applied := (st.scale, st.tx, st.ty) }

/-- The setScale function used by the zoom buttons and the keyboard
shortcuts: clamp, commit, apply. -/
def setScale (st : ViewState) (s : ℚ) : ViewState :=
  applyTransform { st with scale := clampScale st s }

/-- The adjustFit function: a no-op without a loaded document, otherwise
reset the translation to zero and the scale to one and apply. -/
def adjustFit (st : ViewState) : ViewState :=
  match st.svgElement with
  | none => st
  | some _ => applyTransform { st with tx := 0, ty := 0, scale := 1 }

/-- The shared anchor-adjusting update of the wheel handler (lines 438 to
441) and the pinch branch (lines 402 to 405): translate is decreased by
anchor times the scale difference, then the new scale is committed and
the transform applied. -/
def anchorZoom (st : ViewState) (ax ay newScale : ℚ) : ViewState :=
  applyTransform
    { st with
      tx := st.tx - ax * (newScale - st.scale),
      ty := st.ty - ay * (newScale - st.scale),
      scale := newScale }

/-- The wheel handler: factor 1.08 on scroll up (negative deltaY), 1/1.08
otherwise; clamp the product; anchor at the cursor position in surface
coordinates. -/
def wheelZoom (st : ViewState) (mx my deltaY : ℚ) : ViewState :=
  let factor := if 0 < -deltaY then (1.08 : ℚ) else 1 / (1.08 : ℚ)
  anchorZoom st mx my (clampScale st (st.scale * factor))

/-- Pinch anchor captured on the first move with two contacts: initial
inter-contact distance, scale at capture, initial center in client
coordinates. -/
structure PinchStart where
  dist : ℚ
  scale : ℚ
  centerX : ℚ
  centerY : ℚ

/-- The unclamped pinch scale: anchor scale times the ratio of the current
inter-contact distance to the anchor distance. -/
def pinchRawScale (ps : PinchStart) (curDist : ℚ) : ℚ :=
  ps.scale * (curDist / ps.dist)

/-- The pinch move branch after anchor capture: clamp the raw scale and
anchor the zoom at the initial gesture center translated into surface
coordinates by the bounding rectangle offsets.  The current inter-contact
distance is taken as input; the caller computes it as the Euclidean
distance between the two contact positions. -/
def pinchMove (st : ViewState) (ps : PinchStart)
    (curDist rectLeft rectTop : ℚ) : ViewState :=
  anchorZoom st (ps.centerX - rectLeft) (ps.centerY - rectTop)
    (clampScale st (pinchRawScale ps curDist))

/-- The initial view state of the source (lines 30 to 42). -/
def initViewState : ViewState :=
  { scale := 1, tx := 0, ty := 0, minScale := 0.1, maxScale := 20,
    svgElement := none, applied := (1, 0, 0) }

/-- Surface position of the content point (px, py) under a view state. -/
def surfacePos (st : ViewState) (px py : ℚ) : ℚ × ℚ :=
  (st.tx + st.scale * px, st.ty + st.scale * py)

/-- Content point lying under the surface point (sx, sy). -/
def contentAt (st : ViewState) (sx sy : ℚ) : ℚ × ℚ :=
  ((sx - st.tx) / st.scale, (sy - st.ty) / st.scale)

/-- One zoom operation: button or keyboard step by 1.2, wheel step at a
cursor anchor, or a pinch move against a captured anchor. -/
inductive ZoomOp : Type where
  | button (zoomingIn : Bool)
  | wheel (mx my deltaY : ℚ)
  | pinch (ps : PinchStart) (curDist rectLeft rectTop : ℚ)

/-- Dispatch of one zoom operation on the view state, as the respective
handlers do. -/
def zoomStep (st : ViewState) : ZoomOp → ViewState
  | .button true => setScale st (st.scale * (1.2 : ℚ))
  | .button false => setScale st (st.scale / (1.2 : ℚ))
  | .wheel mx my d => wheelZoom st mx my d
  | .pinch ps c rl rt => pinchMove st ps c rl rt

theorem clampScale_bounds (st : ViewState) (s : ℚ)
    (h : st.minScale ≤ st.maxScale) :
    st.minScale ≤ clampScale st s ∧ clampScale st s ≤ st.maxScale :=
  ⟨le_max_left _ _, max_le h (min_le_left _ _)⟩

theorem zoomStep_scale_bounds (st : ViewState) (op : ZoomOp)
    (h : st.minScale ≤ st.maxScale) :
    st.minScale ≤ (zoomStep st op).scale ∧
      (zoomStep st op).scale ≤ st.maxScale := by
  cases op with
  | button zoomingIn =>
    cases zoomingIn <;>
      simpa [zoomStep, setScale, applyTransform] using clampScale_bounds st _ h
  | wheel mx my d =>
    simpa [zoomStep, wheelZoom, anchorZoom, applyTransform] using
      clampScale_bounds st _ h
  | pinch ps c rl rt =>
    simpa [zoomStep, pinchMove, anchorZoom, applyTransform] using
      clampScale_bounds st _ h

theorem zoomStep_limits (st : ViewState) (op : ZoomOp) :
    (zoomStep st op).minScale = st.minScale ∧
      (zoomStep st op).maxScale = st.maxScale := by
  cases op with
  | button zoomingIn =>
    cases zoomingIn <;> simp [zoomStep, setScale, applyTransform]
  | wheel mx my d => simp [zoomStep, wheelZoom, anchorZoom, applyTransform]
  | pinch ps c rl rt => simp [zoomStep, pinchMove, anchorZoom, applyTransform]

theorem foldl_zoomStep_limits (ops : List ZoomOp) (st : ViewState) :
    (ops.foldl zoomStep st).minScale = st.minScale ∧
      (ops.foldl zoomStep st).maxScale = st.maxScale := by
  induction ops generalizing st with
  | nil => exact ⟨rfl, rfl⟩
  | cons op rest ih =>
    rcases ih (zoomStep st op) with ⟨h1, h2⟩
    rcases zoomStep_limits st op with ⟨h3, h4⟩
    exact ⟨by simpa [h3] using h1, by simpa [h4] using h2⟩

/-- C4: for any sequence of zoom operations (button or keyboard step by
1.2, wheel step by 1.08 or its inverse, pinch by distance ratio) starting
from the initial state with scale 1, the scale lies between the minimum
0.1 and the maximum 20 after every operation. -/
theorem c4_scale_always_clamped (ops : List ZoomOp) (op : ZoomOp) :
    (0.1 : ℚ) ≤ (zoomStep (ops.foldl zoomStep initViewState) op).scale ∧
      (zoomStep (ops.foldl zoomStep initViewState) op).scale ≤ 20 := by
  rcases foldl_zoomStep_limits ops initViewState with ⟨h1, h2⟩
  have hmin : (ops.foldl zoomStep initViewState).minScale = (0.1 : ℚ) := by
    rw [h1]; norm_num [initViewState]
  have hmax : (ops.foldl zoomStep initViewState).maxScale = (20 : ℚ) := by
    rw [h2]; norm_num [initViewState]
  have hb := zoomStep_scale_bounds (ops.foldl zoomStep initViewState) op
    (by rw [hmin, hmax]; norm_num)
  rw [hmin, hmax] at hb
  exact hb

/-- C10: when no document is loaded the fit operation changes nothing:
the whole view state, the transform applied to the surface included, is
returned unchanged. -/
theorem c10_fit_noop_without_document (st : ViewState)
    (h : st.svgElement = none) : adjustFit st = st := by
  unfold adjustFit
  rw [h]

/-- Witness for C10 at a concrete state moved away from identity by prior
pan and zoom interactions. -/
theorem c10_fit_noop_witness :
    adjustFit
        { scale := 3, tx := 7, ty := -2, minScale := 0.1, maxScale := 20,
          svgElement := none, applied := (3, 7, -2) } =
      { scale := 3, tx := 7, ty := -2, minScale := 0.1, maxScale := 20,
        svgElement := none, applied := (3, 7, -2) } :=
  c10_fit_noop_without_document _ rfl

/-- View state reached after a pan, used to exhibit the failure of the
anchor preservation claims away from the identity translation. -/
def pannedState : ViewState :=
  { scale := 2, tx := 0, ty := 0, minScale := 0.1, maxScale := 20,
    svgElement := none, applied := (2, 0, 0) }

/-- Counterexample to C2: from the view state with scale 2 and zero
translation, a wheel zoom-in at surface anchor (1, 0) moves the content
point that was under the anchor: its surface position was (1, 0) before
the operation and is (23/25, 0) after it, although the translate update
of the claim was applied verbatim. -/
theorem c2_anchor_preservation_counterexample :
    (surfacePos (wheelZoom pannedState 1 0 (-1))
        (contentAt pannedState 1 0).1 (contentAt pannedState 1 0).2).1 ≠ 1 := by
  norm_num [wheelZoom, anchorZoom, applyTransform, surfacePos, contentAt,
    clampScale, pannedState, min_def, max_def]

/-- C2 amended: the translate update keeps fixed the surface position of
the content point whose content coordinates equal the anchor; the content
point lying under the anchor on the surface is preserved when the state
satisfies tx = ax * (1 - scale) and ty = ay * (1 - scale) (for example the
identity view state right after a render), but not from arbitrary view
states. -/
theorem c2_anchor_zoom_amended (st : ViewState) (ax ay n : ℚ) :
    surfacePos (anchorZoom st ax ay n) ax ay = surfacePos st ax ay ∧
    (st.scale ≠ 0 → st.tx = ax * (1 - st.scale) → st.ty = ay * (1 - st.scale) →
      surfacePos (anchorZoom st ax ay n)
          (contentAt st ax ay).1 (contentAt st ax ay).2 = (ax, ay)) := by
  constructor
  · simp only [anchorZoom, applyTransform, surfacePos, Prod.mk.injEq]
    constructor <;> ring
  · intro hs hx hy
    have hx1 : (contentAt st ax ay).1 = ax := by
      rw [contentAt]
      field_simp [hx]
      ring
    have hy1 : (contentAt st ax ay).2 = ay := by
      rw [contentAt]
      field_simp [hy]
      ring
    rw [hx1, hy1]
    simp only [anchorZoom, applyTransform, surfacePos, Prod.mk.injEq]
    constructor
    · rw [hx]; ring
    · rw [hy]; ring

/-- Witness for C2 amended at the identity view state with anchor (5, 3)
and new scale 2: the content point under the anchor keeps its surface
position. -/
theorem c2_anchor_zoom_amended_witness :
    surfacePos (anchorZoom initViewState 5 3 2)
        (contentAt initViewState 5 3).1 (contentAt initViewState 5 3).2 =
      (5, 3) :=
  (c2_anchor_zoom_amended initViewState 5 3 2).2 (by norm_num [initViewState])
    (by norm_num [initViewState]) (by norm_num [initViewState])

/-- View state panned to tx = 5, from which the pinch scenario fails to
stay anchored. -/
def pannedState5 : ViewState :=
  { scale := 1, tx := 5, ty := 0, minScale := 0.1, maxScale := 20,
    svgElement := none, applied := (1, 5, 0) }

/-- Counterexample to C5: with the anchor captured at distance 100 and
scale 1 with center (10, 0), after the view was panned to tx = 5, the move
to distance 200 yields scale 2 but the content point that was under the
initial center moves from surface position (10, 0) to (5, 0): the view is
not anchored at the initial center from every state. -/
theorem c5_pinch_counterexample :
    (surfacePos (pinchMove pannedState5 ⟨100, 1, 10, 0⟩ 200 0 0)
        (contentAt pannedState5 10 0).1 (contentAt pannedState5 10 0).2).1 ≠
      10 := by
  norm_num [pinchMove, pinchRawScale, anchorZoom, applyTransform, surfacePos,
    contentAt, clampScale, pannedState5, min_def, max_def]

/-- C5 amended: a pinch anchored at distance 100 with scale 1 and moved to
distance 200 produces the raw scale 2 before clamping and commits scale 2;
the translate adjustment is anchored at the initial gesture center, and
the content point under that center keeps its surface position when the
gesture starts from the identity view state (zero translation). -/
theorem c5_pinch_scenario_amended (cx cy : ℚ) :
    pinchRawScale ⟨100, 1, cx, cy⟩ 200 = 2 ∧
    (pinchMove initViewState ⟨100, 1, cx, cy⟩ 200 0 0).scale = 2 ∧
    surfacePos (pinchMove initViewState ⟨100, 1, cx, cy⟩ 200 0 0)
        (contentAt initViewState cx cy).1 (contentAt initViewState cx cy).2 =
      (cx, cy) := by
  refine ⟨by norm_num [pinchRawScale], ?_, ?_⟩
  · norm_num [pinchMove, anchorZoom, applyTransform, clampScale,
      pinchRawScale, initViewState, min_def, max_def]
  · simp only [pinchMove, anchorZoom, applyTransform, surfacePos, contentAt,
      initViewState, clampScale, pinchRawScale, Prod.mk.injEq]
    norm_num [min_def, max_def]
    constructor <;> ring

/-! ## Renderer (src/js/index.js lines 86 to 117) -/

/-- Numeric value of a list of decimal digit characters. -/
def digitsToNat (l : List Char) : ℕ :=
  l.foldl (fun acc c => 10 * acc + (c.toNat - 48)) 0

/-- Exponent suffix of a decimal literal: reads an optional e or E, an
optional sign and digits, returning the signed exponent (zero when the
suffix is absent or incomplete, as parseFloat then stops before it). -/
def parseExponent (l : List Char) : ℤ :=
  match l with
  | c :: r =>
    if c = 'e' ∨ c = 'E' then
      let signed : ℤ × List Char :=
        match r with
        | '-' :: r2 => (-1, r2)
        | '+' :: r2 => (1, r2)
        | _ => (1, r)
      let ed := signed.2.takeWhile Char.isDigit
      if ed.isEmpty then 0 else signed.1 * (digitsToNat ed : ℤ)
    else 0
  | [] => 0

/-- Decomposition of a decimal literal as parseFloat reads it: sign flag,
integer part, fraction digits value, fraction length, exponent; none
models NaN (no digit could be read).  Skips leading whitespace, reads an
optional sign, integer digits, an optional fraction and an optional
exponent, ignoring any trailing garbage. -/
def parseFloatRep (s : String) : Option (Bool × ℕ × ℕ × ℕ × ℤ) :=
  let l0 := s.data.dropWhile Char.isWhitespace
  let signed : Bool × List Char :=
    match l0 with
    | '-' :: r => (true, r)
    | '+' :: r => (false, r)
    | _ => (false, l0)
  let ip := signed.2.takeWhile Char.isDigit
  let l2 := signed.2.dropWhile Char.isDigit
  let fracked : List Char × List Char :=
    match l2 with
    | '.' :: r => (r.takeWhile Char.isDigit, r.dropWhile Char.isDigit)
    | _ => ([], l2)
  if ip.isEmpty ∧ fracked.1.isEmpty then none
  else
    some (signed.1, digitsToNat ip, digitsToNat fracked.1, fracked.1.length,
      parseExponent fracked.2)

/-- Rational value of a parseFloat decomposition. -/
def ratOfRep (r : Bool × ℕ × ℕ × ℕ × ℤ) : ℚ :=
  (if r.1 then (-1 : ℚ) else 1) *
    ((r.2.1 : ℚ) + (r.2.2.1 : ℚ) / (10 : ℚ) ^ r.2.2.2.1) *
    (10 : ℚ) ^ r.2.2.2.2

/-- Model of the parseFloat builtin on decimal inputs.  The special
Infinity input is not modelled; no claim exercises it. -/
def parseFloat (s : String) : Option ℚ :=
  (parseFloatRep s).map ratOfRep

/-- Zero padding of a digit string on the left to the given width. -/
def padZeros (k : ℕ) (s : String) : String :=
  if s.length < k then String.mk (List.replicate (k - s.length) '0') ++ s
  else s

/-- Model of the ToString conversion of a Number whose value is an exact
decimal: integers print without a point, other values print the shortest
decimal expansion.  Values whose reduced denominator is not a power of
ten (never produced by parseFloat on decimal input) fall back to a
fraction notation. -/
def fmtNum (q : ℚ) : String :=
  let sign := if q < 0 then "-" else ""
  let n := q.num.natAbs
  let d := q.den
  if d = 1 then sign ++ toString n
  else
    match (List.range (d + 1)).find? (fun k => decide (d ∣ 10 ^ k)) with
    | some k =>
      let m := n * 10 ^ k / d
      sign ++ toString (m / 10 ^ k) ++ "." ++ padZeros k (toString (m % 10 ^ k))
    | none => sign ++ toString n ++ "/" ++ toString d

/-- The template string of line 107 of the source. -/
def viewBoxString (w h : ℚ) : String :=
  "0 0 " ++ fmtNum w ++ " " ++ fmtNum h

/-- The viewBox synthesis of lines 99 to 110: when the root has no
viewBox attribute but truthy width and height attributes that both parse
to numbers, set viewBox to 0 0 width height; otherwise leave the element
untouched. -/
def injectViewBox (e : XElem) : XElem :=
  if (e.getAttr "viewBox").isSome then e
  else
    match e.getAttr "width", e.getAttr "height" with
    | some w, some h =>
      if w ≠ "" ∧ h ≠ "" then
        match parseFloat w, parseFloat h with
        | some wi, some hi => e.setAttr "viewBox" (viewBoxString wi hi)
        | _, _ => e
      else e
    | _, _ => e

/-- Result of mounting a document: the new view state, the imported clone
actually mounted into the surface, and the root whose serialization is
mirrored into the editable source area. -/
structure RenderResult where
  state : ViewState
  imported : XElem
  sourceMirror : XElem

/-- The renderSVGDocument function: reset the transform state, record the
ORIGINAL document root as the current svg element, clone it, synthesize a
viewBox on the CLONE only, mount the clone, apply the identity transform,
run adjustFit, and mirror the serialization of the original root into the
source area. -/
def renderSVGDocument (st : ViewState) (root : XElem) : RenderResult :=
  let st1 : ViewState :=
    { st with scale := 1, tx := 0, ty := 0, svgElement := some root }
  let imported := injectViewBox root
  let st2 := { st1 with applied := (1, 0, 0) }
  { state := adjustFit st2, imported := imported, sourceMirror := root }

/-- The document the download handler serializes: the recorded current
svg element, when one is loaded. -/
def downloadRoot (st : ViewState) : Option XElem :=
  st.svgElement

/-- The common tail of every load path, starting from the tree the XML
parser produced: check for a parser error, sanitize, render; none when
the load fails (parser error, or sanitization removed the root). -/
def loadParsedSVG (st : ViewState) (doc : XElem) : Option RenderResult :=
  match parseSVGText doc with
  | Except.error _ => none
  | Except.ok d => (sanitizeSVGDocument d).map (renderSVGDocument st)

/-- The DOM tree the XML parser produces for the literal text
<svg width="100" height="50"><circle r="5"/></svg>. -/
def exampleSVGDoc : XElem :=
  .elem "svg" [⟨"width", "100"⟩, ⟨"height", "50"⟩]
    [.elem "circle" [⟨"r", "5"⟩] []]

theorem parseFloat_100 : parseFloat "100" = some 100 := by
  have h : parseFloatRep "100" = some (false, 100, 0, 0, 0) := by decide
  rw [parseFloat, h]
  norm_num [ratOfRep]

theorem parseFloat_50 : parseFloat "50" = some 50 := by
  have h : parseFloatRep "50" = some (false, 50, 0, 0, 0) := by decide
  rw [parseFloat, h]
  norm_num [ratOfRep]

theorem getAttrList_setAttrList_same (n v : String) (a : List XAttr) :
    getAttrList n (setAttrList n v a) = some v := by
  induction a with
  | nil => simp [setAttrList, getAttrList]
  | cons x rest ih =>
    by_cases hx : x.name = n
    · simp [setAttrList, getAttrList, hx]
    · simp [setAttrList, getAttrList, hx, ih]

theorem c3_exampleSVGDoc_loads :
    loadParsedSVG initViewState exampleSVGDoc =
      some (renderSVGDocument initViewState exampleSVGDoc) := by
  have hp : existsElem (isNamed "parsererror") exampleSVGDoc = false := by
    simp [existsElem, existsElemList, isNamed, XElem.name, exampleSVGDoc]
  have h1 : List.filter keepAttr
      [(⟨"width", "100"⟩ : XAttr), ⟨"height", "50"⟩] =
        [⟨"width", "100"⟩, ⟨"height", "50"⟩] := by decide
  have h2 : List.filter keepAttr [(⟨"r", "5"⟩ : XAttr)] = [⟨"r", "5"⟩] := by
    decide
  have hs : sanitizeSVGDocument exampleSVGDoc = some exampleSVGDoc := by
    simp [sanitizeSVGDocument, removeNamedRoot, removeNamedList,
      cleanAttrsRoot, cleanAttrsList, exampleSVGDoc, h1, h2]
  rw [loadParsedSVG, parseSVGText, if_neg (by rw [hp]; exact Bool.false_ne_true)]
  show (sanitizeSVGDocument exampleSVGDoc).map (renderSVGDocument initViewState) =
    some (renderSVGDocument initViewState exampleSVGDoc)
  rw [hs]
  rfl

/-- Counterexample to C3: loading the text with width 100 and height 50
and no viewBox succeeds, but the document the export paths serialize (the
recorded current svg element, used by the download handler and mirrored
into the source area) carries NO viewBox attribute: the synthesized
viewBox ends up only on the mounted clone. -/
theorem c3_export_viewbox_counterexample :
    ((loadParsedSVG initViewState exampleSVGDoc).map
        (fun r => Option.map (XElem.getAttr "viewBox") (downloadRoot r.state))) =
      some (some none) := by
  rw [c3_exampleSVGDoc_loads]
  simp [renderSVGDocument, adjustFit, applyTransform, downloadRoot,
    XElem.getAttr, getAttrList, exampleSVGDoc, XElem.attrs]

/-- C3 amended: loading the example text yields a RENDERED (mounted) root
carrying viewBox 0 0 100 50, while the exported document (download and
source mirror serialize the recorded original root) carries no viewBox
attribute. -/
theorem c3_viewbox_rendered_not_exported :
    ((loadParsedSVG initViewState exampleSVGDoc).map
        (fun r => (XElem.getAttr "viewBox" r.imported,
          Option.map (XElem.getAttr "viewBox") (downloadRoot r.state)))) =
      some (some "0 0 100 50", some none) := by
  rw [c3_exampleSVGDoc_loads]
  have hv : viewBoxString 100 50 = "0 0 100 50" := by decide
  simp [renderSVGDocument, injectViewBox, XElem.getAttr, getAttrList,
    exampleSVGDoc, XElem.attrs, parseFloat_100, parseFloat_50, hv,
    XElem.setAttr, setAttrList, adjustFit, applyTransform, downloadRoot]

/-- C7: the rendered (imported) root is exactly the injectViewBox result;
when the root lacks a viewBox and carries truthy width and height whose
values parse as numbers, it receives viewBox 0 0 width height (appended,
all other attributes unchanged); in every other case (viewBox present, or
width or height missing, empty or non-numeric) the root is left
untouched. -/
theorem c7_viewbox_synthesis (st : ViewState) (root : XElem) :
    ((renderSVGDocument st root).imported = injectViewBox root) ∧
    (∀ w h wi hi, root.getAttr "viewBox" = none →
      root.getAttr "width" = some w → root.getAttr "height" = some h →
      w ≠ "" → h ≠ "" → parseFloat w = some wi → parseFloat h = some hi →
      injectViewBox root = root.setAttr "viewBox" (viewBoxString wi hi) ∧
      (injectViewBox root).getAttr "viewBox" = some (viewBoxString wi hi)) ∧
    ((root.getAttr "viewBox").isSome = true ∨ root.getAttr "width" = none ∨
      root.getAttr "height" = none ∨ root.getAttr "width" = some "" ∨
      root.getAttr "height" = some "" ∨
      (∃ w, root.getAttr "width" = some w ∧ parseFloat w = none) ∨
      (∃ h, root.getAttr "height" = some h ∧ parseFloat h = none) →
      injectViewBox root = root) := by
  refine ⟨rfl, ?_, ?_⟩
  · intro w h wi hi hvb hw hh hwne hhne hpw hph
    have hset : injectViewBox root = root.setAttr "viewBox" (viewBoxString wi hi) := by
      simp [injectViewBox, hvb, hw, hh, hwne, hhne, hpw, hph]
    refine ⟨hset, ?_⟩
    rw [hset]
    obtain ⟨n, a, cs⟩ := root
    simp [XElem.setAttr, XElem.getAttr, XElem.attrs,
      getAttrList_setAttrList_same]
  · intro hneg
    by_cases hvb : (root.getAttr "viewBox").isSome
    · simp [injectViewBox, hvb]
    · cases hw : root.getAttr "width" with
      | none => simp [injectViewBox, hvb, hw]
      | some wv =>
        cases hh : root.getAttr "height" with
        | none => simp [injectViewBox, hvb, hw, hh]
        | some hv =>
          by_cases hwe : wv = ""
          · simp [injectViewBox, hvb, hw, hh, hwe]
          · by_cases hhe : hv = ""
            · simp [injectViewBox, hvb, hw, hh, hwe, hhe]
            · rcases hneg with h | h | h | h | h | ⟨w2, hw2, hpw2⟩ |
                ⟨h2, hh2, hph2⟩
              · exact absurd h hvb
              · rw [hw] at h; exact absurd h (by simp)
              · rw [hh] at h; exact absurd h (by simp)
              · rw [hw] at h
                exact absurd (Option.some.inj h) hwe
              · rw [hh] at h
                exact absurd (Option.some.inj h) hhe
              · rw [hw] at hw2
                rw [← Option.some.inj hw2] at hpw2
                simp [injectViewBox, hvb, hw, hh, hwe, hhe, hpw2]
              · rw [hh] at hh2
                rw [← Option.some.inj hh2] at hph2
                cases hpw3 : parseFloat wv with
                | none => simp [injectViewBox, hvb, hw, hh, hwe, hhe, hpw3]
                | some wn =>
                  simp [injectViewBox, hvb, hw, hh, hwe, hhe, hpw3, hph2]

/-- Witness for C7 at a concrete root with width 100 and height 50 and no
viewBox: the injected attribute is viewBox 0 0 100 50. -/
theorem c7_viewbox_synthesis_witness :
    injectViewBox (XElem.elem "svg" [⟨"width", "100"⟩, ⟨"height", "50"⟩] []) =
      XElem.setAttr "viewBox" "0 0 100 50"
        (XElem.elem "svg" [⟨"width", "100"⟩, ⟨"height", "50"⟩] []) := by
  have h := ((c7_viewbox_synthesis initViewState
      (XElem.elem "svg" [⟨"width", "100"⟩, ⟨"height", "50"⟩] [])).2.1
    "100" "50" 100 50 rfl rfl rfl (by decide) (by decide)
    parseFloat_100 parseFloat_50).1
  have hv : viewBoxString 100 50 = "0 0 100 50" := by decide
  rw [h, hv]

/-! ## Image inliner (src/js/index.js lines 275 to 321) -/

/-- Effective href of an image element as the loop reads it at lines 293
to 297: the plain href attribute when truthy, else the XLink namespaced
href; none when the chosen value is null or empty (the loop then skips
the element). -/
def imageHref (e : XElem) : Option String :=
  let chosen :=
    match e.getAttr "href" with
    | some v => if v = "" then e.getAttr "xlink:href" else some v
    | none => e.getAttr "xlink:href"
  match chosen with
  | some v => if v = "" then none else some v
  | none => none

/-- Processing of one image element by the loop body at lines 292 to 313:
skip when there is no usable href or it already starts with data:, set
the plain href attribute to the fetched data URI on success, and leave
the element untouched on any failure (network error, CORS block, non-OK
status, reader error).  The fetch plus FileReader pipeline is the oracle
fetchRes, which yields the data URI on success and none on any failure. -/
def processImage (fetchRes : String → Option String) (e : XElem) : XElem :=
  match imageHref e with
  | none => e
  | some href =>
    if "data:".data.isPrefixOf href.data then e
    else
      match fetchRes href with
      | none => e
      | some dataUrl => e.setAttr "href" dataUrl

/-- Application of the loop to every image element of a forest in
document order.  Each iteration of the sequential source loop mutates
only the attributes of the element it visits and awaits its own fetch, so
the loop coincides with this element-wise map. -/
def inlineImagesList (fetchRes : String → Option String) :
    List XElem → List XElem
  | [] => []
  | XElem.elem n a cs :: rest =>
    (if n = "image" then
      processImage fetchRes (XElem.elem n a (inlineImagesList fetchRes cs))
    else XElem.elem n a (inlineImagesList fetchRes cs)) ::
      inlineImagesList fetchRes rest

/-- Application of the loop to every image element of a document. -/
def inlineImagesRoot (fetchRes : String → Option String) (e : XElem) : XElem :=
  match e with
  | .elem n a cs =>
    if n = "image" then
      processImage fetchRes (XElem.elem n a (inlineImagesList fetchRes cs))
    else XElem.elem n a (inlineImagesList fetchRes cs)

/-- Outcome of the inline images click handler: resulting view state,
whether a re-sanitize and re-render happened, and the status message. -/
structure InlineOutcome where
  state : ViewState
  rendered : Bool
  status : String

/-- The inline images click handler: without a loaded document it only
reports; otherwise it works on a re-serialized and re-parsed copy of the
current root (the round trip reproduces the tree); when the copy has no
image element it reports so and stops without re-sanitizing or
re-rendering; otherwise it processes every image, then sanitizes and
renders the result. -/
def inlineImgsClick (fetchRes : String → Option String) (st : ViewState) :
    InlineOutcome :=
  match st.svgElement with
  | none => ⟨st, false, "先加载一个 SVG"⟩
  | some svg =>
    if existsElem (isNamed "image") svg then
      match sanitizeSVGDocument (inlineImagesRoot fetchRes svg) with
      | some cleaned =>
        ⟨(renderSVGDocument st cleaned).state, true,
          "内联尝试完成(若部分图片因 CORS 未内联,保留原路径)"⟩
      | none =>
        ⟨{ st with scale := 1, tx := 0, ty := 0, svgElement := none }, false,
          "内联失败"⟩
    else ⟨st, false, "没有 <image> 标记需要内联"⟩

theorem processImage_skip (fetchRes : String → Option String) (e : XElem) (u : String)
    (h : imageHref e = none ∨
      (imageHref e = some u ∧
        ("data:".data.isPrefixOf u.data = true ∨ fetchRes u = none))) :
    processImage fetchRes e = e := by
  rcases h with h | ⟨h, hd | hf⟩
  · rw [processImage, h]
  · rw [processImage, h]
    simp [hd]
  · rw [processImage, h]
    by_cases hd : "data:".data.isPrefixOf u.data
    · simp [hd]
    · simp [hd, hf]

theorem processImage_all_fail (fetchRes : String → Option String) (e : XElem)
    (hf : ∀ u, fetchRes u = none) : processImage fetchRes e = e := by
  cases hh : imageHref e with
  | none => rw [processImage, hh]
  | some u =>
    rw [processImage, hh]
    by_cases hd : "data:".data.isPrefixOf u.data
    · simp [hd]
    · simp [hd, hf u]

theorem inlineImagesList_all_fail (fetchRes : String → Option String)
    (hf : ∀ u, fetchRes u = none) (l : List XElem) :
    inlineImagesList fetchRes l = l := by
  induction l using inlineImagesList.induct fetchRes with
  | case1 => rw [inlineImagesList]
  | case2 n a cs rest ih1 ih2 =>
    rw [inlineImagesList, ih1, ih2, processImage_all_fail fetchRes _ hf]
    simp

theorem getAttrList_append_left (n : String) (a l : List XAttr) (u : String)
    (h : getAttrList n a = some u) : getAttrList n (a ++ l) = some u := by
  induction a with
  | nil => simp [getAttrList] at h
  | cons x rest ih =>
    by_cases hx : x.name = n
    · rw [getAttrList, if_pos hx] at h
      simp [getAttrList, hx, h]
    · rw [getAttrList, if_neg hx] at h
      simp [getAttrList, hx, ih h]

theorem setAttrList_absent (n v : String) (a : List XAttr)
    (h : getAttrList n a = none) : setAttrList n v a = a ++ [⟨n, v⟩] := by
  induction a with
  | nil => rw [setAttrList]; rfl
  | cons x rest ih =>
    by_cases hx : x.name = n
    · rw [getAttrList, if_pos hx] at h
      exact absurd h (by simp)
    · rw [getAttrList, if_neg hx] at h
      rw [setAttrList, if_neg hx, ih h]
      rfl

/-- C8: per-image error handling of the inliner.  First part: an image
whose effective href is absent, already a data URI, or whose fetch fails
is left completely untouched, and the loop still processes the remaining
elements.  Second part: when every fetch fails the whole document is left
untouched (failures are non-fatal).  Third part: when the current
document has no image element the handler reports that none were found,
does not re-sanitize or re-render, and leaves the state unchanged. -/
theorem c8_inliner_error_handling :
    (∀ (fetchRes : String → Option String) (a : List XAttr)
      (rest : List XElem) (u : String),
      (imageHref (XElem.elem "image" a []) = none ∨
        (imageHref (XElem.elem "image" a []) = some u ∧
          ("data:".data.isPrefixOf u.data = true ∨ fetchRes u = none))) →
      inlineImagesList fetchRes (XElem.elem "image" a [] :: rest) =
        XElem.elem "image" a [] :: inlineImagesList fetchRes rest) ∧
    (∀ (fetchRes : String → Option String) (doc : XElem),
      (∀ u, fetchRes u = none) → inlineImagesRoot fetchRes doc = doc) ∧
    (∀ (fetchRes : String → Option String) (st : ViewState) (svg : XElem),
      st.svgElement = some svg → existsElem (isNamed "image") svg = false →
      inlineImgsClick fetchRes st =
        ⟨st, false, "没有 <image> 标记需要内联"⟩) := by
  refine ⟨?_, ?_, ?_⟩
  · intro fetchRes a rest u h
    have h0 : inlineImagesList fetchRes ([] : List XElem) = [] := by
      rw [inlineImagesList]
    rw [inlineImagesList, h0, if_pos rfl, processImage_skip fetchRes _ u h]
  · intro fetchRes doc hf
    obtain ⟨n, a, cs⟩ := doc
    rw [inlineImagesRoot, inlineImagesList_all_fail fetchRes hf]
    by_cases hn : n = "image"
    · rw [if_pos hn, processImage_all_fail fetchRes _ hf]
    · rw [if_neg hn]
  · intro fetchRes st svg h1 h2
    simp [inlineImgsClick, h1, h2]

/-- Witness for C8: with an always-failing fetch, a single image whose
href is already a data URI is left untouched, and the handler on a
document without image elements reports that none were found without
re-rendering. -/
theorem c8_inliner_error_handling_witness :
    inlineImagesList (fun _ => none)
        [XElem.elem "image" [⟨"href", "data:image/png;base64,AA"⟩] []] =
      [XElem.elem "image" [⟨"href", "data:image/png;base64,AA"⟩] []] ∧
    inlineImgsClick (fun _ => none)
        { initViewState with svgElement := some (XElem.elem "svg" [] []) } =
      ⟨{ initViewState with svgElement := some (XElem.elem "svg" [] []) },
        false, "没有 <image> 标记需要内联"⟩ := by
  constructor
  · have h1 := c8_inliner_error_handling.1 (fun _ => none)
      [⟨"href", "data:image/png;base64,AA"⟩] [] "data:image/png;base64,AA"
      (Or.inr ⟨rfl, Or.inl (by decide)⟩)
    have h0 : inlineImagesList (fun _ => none) ([] : List XElem) = [] := by
      rw [inlineImagesList]
    rw [h1, h0]
  · exact c8_inliner_error_handling.2.2 (fun _ => none) _ _ rfl
      (by simp [existsElem, existsElemList, isNamed, XElem.name])

/-- C9: successful inlining of an image that carries only an XLink
namespaced href sets a NEW plain href attribute (appended after the
existing attributes) to the data URI, while the XLink attribute stays in
place with the original external URL. -/
theorem c9_xlink_href_left_in_place (fetchRes : String → Option String)
    (a : List XAttr) (cs : List XElem) (u d : String)
    (h1 : getAttrList "href" a = none)
    (h2 : getAttrList "xlink:href" a = some u)
    (h3 : u ≠ "")
    (h4 : "data:".data.isPrefixOf u.data = false)
    (h5 : fetchRes u = some d) :
    processImage fetchRes (XElem.elem "image" a cs) =
      XElem.elem "image" (a ++ [⟨"href", d⟩]) cs ∧
    getAttrList "xlink:href" (a ++ [⟨"href", d⟩]) = some u := by
  have himg : imageHref (XElem.elem "image" a cs) = some u := by
    simp [imageHref, XElem.getAttr, XElem.attrs, h1, h2, h3]
  constructor
  · rw [processImage, himg]
    simp only [h4, Bool.false_eq_true, if_false, h5]
    rw [XElem.setAttr, setAttrList_absent "href" d a h1]
  · exact getAttrList_append_left "xlink:href" a _ u h2

/-- Witness for C9 at a concrete image with only an XLink href and a
successful fetch: the plain href is appended with the data URI and the
XLink href still holds the external URL. -/
theorem c9_xlink_href_left_in_place_witness :
    processImage (fun _ => some "data:image/png;base64,QUJD")
        (XElem.elem "image" [⟨"xlink:href", "https://example.com/i.png"⟩] []) =
      XElem.elem "image"
        [⟨"xlink:href", "https://example.com/i.png"⟩,
          ⟨"href", "data:image/png;base64,QUJD"⟩] [] ∧
    getAttrList "xlink:href"
        [(⟨"xlink:href", "https://example.com/i.png"⟩ : XAttr),
          ⟨"href", "data:image/png;base64,QUJD"⟩] =
      some "https://example.com/i.png" :=
  c9_xlink_href_left_in_place (fun _ => some "data:image/png;base64,QUJD")
    [⟨"xlink:href", "https://example.com/i.png"⟩] [] "https://example.com/i.png"
    "data:image/png;base64,QUJD" rfl rfl (by decide) (by decide) rfl
